import Mathlib

set_option autoImplicit false

/-!
Verification development for the tattoo-studio scheduling and identity core.

Shallow embedding of:
- `backend/services/session_service.py` (SessionService)
- `backend/repositories/session_repository.py` (SessionRepository)
- `backend/auth/routes.py` (identity reconciliation, password reset)
- `backend/schemas/session_schema.py` (SessionSchema)

Calendar dates and times of day are modelled as natural numbers: the code
only ever compares them for equality and with the strict order, and both
python `datetime.date` and `datetime.time` are totally ordered, so any
order-embedding into `Nat` is faithful (think of a time as minutes past
midnight and a date as an ordinal day number).
-/

/-- A stored User row (table `users`): id, display name, unique email,
optional password hash.  `created_at` and `jotform_api_key` are never read
by the code under verification and are omitted. -/
structure User where
  id : Nat
  name : String
  email : String
  password_hash : Option String
deriving Repr, DecidableEq

/-- A stored Client row (table `clients`): id, owning user, display name.
The optional email/phone/notes fields are never read by the scheduling or
calendar code and are omitted. -/
structure Client where
  id : Nat
  user_id : Nat
  name : String
deriving Repr, DecidableEq

/-- A stored Session row (table `sessions`), from `backend/models/session.py`. -/
structure Session where
  id : Nat
  artist_id : Nat
  client_id : Nat
  date : Nat
  start_time : Nat
  end_time : Nat
  notes : Option String
deriving Repr, DecidableEq

/-- The entity store: the three persisted tables plus the autoincrement
counter the database uses to assign primary keys to new sessions.  Row
order in each list is insertion order, matching an unordered SQL `SELECT`
over a fresh table. -/
structure Store where
  users : List User
  clients : List Client
  sessions : List Session
  next_session_id : Nat
deriving Repr, DecidableEq

/-- Raw request payload before Marshmallow parsing.  A field is `none`
when it is missing from the request or cannot be parsed into its target
type (integer / ISO date / ISO time); the schema treats both the same way,
producing a field-keyed validation error.  `notes` is optional and
nullable, hence the doubled `Option`. -/
structure RawPayload where
  artist_id : Option Nat
  client_id : Option Nat
  date : Option Nat
  start_time : Option Nat
  end_time : Option Nat
  notes : Option (Option String)
deriving Repr, DecidableEq

/-- The payload after a successful `SessionSchema.load`. -/
structure SessionPayload where
  artist_id : Nat
  client_id : Nat
  date : Nat
  start_time : Nat
  end_time : Nat
  notes : Option String
deriving Repr, DecidableEq

/-- Error taxonomy of the service layer (section 7 of the design).  The
python code raises `ValueError` with a dict payload; the constructors
record the distinguishing payload of each case. -/
inductive Err where
  | ValidationError (field_errors : List String)
  | SchedulingError (msg : String)
  | NotFoundError (msg : String)
  | ConflictError (conflict_session_id : Nat)
deriving Repr, DecidableEq

/-- Names of the required fields that are missing or unparseable, as
Marshmallow reports them in `e.messages`. -/
def missing_fields (raw : RawPayload) : List String :=
  (if raw.artist_id.isNone then ["artist_id"] else []) ++
  (if raw.client_id.isNone then ["client_id"] else []) ++
  (if raw.date.isNone then ["date"] else []) ++
  (if raw.start_time.isNone then ["start_time"] else []) ++
  (if raw.end_time.isNone then ["end_time"] else [])

/-- `SessionSchema.load`: all five required fields must parse; `notes`
defaults to null when absent. -/
def schema_load (raw : RawPayload) : Except Err SessionPayload :=
  match raw.artist_id, raw.client_id, raw.date, raw.start_time, raw.end_time with
  | some a, some c, some d, some s, some e =>
      .ok ⟨a, c, d, s, e, raw.notes.getD none⟩
  | _, _, _, _, _ => .error (.ValidationError (missing_fields raw))

/-- Half-open interval overlap test used by the conflict query:
`existing.start < proposed.end AND existing.end > proposed.start`,
written here as `aStart < bEnd && bStart < aEnd` for interval `a`
(existing) against interval `b` (proposed). -/
def overlapsHalfOpen (aStart aEnd bStart bEnd : Nat) : Bool :=
  decide (aStart < bEnd) && decide (bStart < aEnd)

/-- The `WHERE` clause of the conflict query in
`SessionService.create_session`: same artist, same date, and the half-open
overlap test against the proposed interval. -/
def conflictsWith (s : Session) (artistId dateV startT endT : Nat) : Bool :=
  (s.artist_id == artistId) && (s.date == dateV) &&
    overlapsHalfOpen s.start_time s.end_time startT endT

/-- Two stored sessions overlap in the sense of the invariant: same
artist, same date, intersecting half-open intervals. -/
def sessionsOverlap (a b : Session) : Bool :=
  (a.artist_id == b.artist_id) && (a.date == b.date) &&
    overlapsHalfOpen a.start_time a.end_time b.start_time b.end_time

/-- `db.get(User, id)`: primary-key lookup. -/
def find_user (st : Store) (uid : Nat) : Option User :=
  st.users.find? (fun u => u.id == uid)

/-- `db.get(Client, id)`: primary-key lookup. -/
def find_client (st : Store) (cid : Nat) : Option Client :=
  st.clients.find? (fun c => c.id == cid)

/-- `SessionService.create_session`: parse, check the time range, check
that artist and client exist, query for a conflicting session, and only
then persist.  Returns the store after the call together with the result;
`SessionRepository.create` appends the new row and the database assigns
`next_session_id` as its primary key. -/
def create_session (st : Store) (raw : RawPayload) : Store × Except Err Session :=
  match schema_load raw with
  | .error e => (st, .error e)
  | .ok p =>
    if p.end_time ≤ p.start_time then
      (st, .error (.SchedulingError "End time must be after start time."))
    else
      match find_user st p.artist_id with
      | none => (st, .error (.NotFoundError "Artist not found."))
      | some _ =>
        match find_client st p.client_id with
        | none => (st, .error (.NotFoundError "Client not found."))
        | some _ =>
          match st.sessions.find?
              (fun s => conflictsWith s p.artist_id p.date p.start_time p.end_time) with
          | some conflict => (st, .error (.ConflictError conflict.id))
          | none =>
            let s : Session :=
              ⟨st.next_session_id, p.artist_id, p.client_id,
                p.date, p.start_time, p.end_time, p.notes⟩
            ({ st with sessions := st.sessions ++ [s],
                       next_session_id := st.next_session_id + 1 },
             .ok s)

/-- A partial-update payload for `update_session`.  The python code loops
`setattr` over the provided keys; the patch enumerates the six payload
fields, `none` meaning the key is absent from the request. -/
structure SessionPatch where
  artist_id : Option Nat
  client_id : Option Nat
  date : Option Nat
  start_time : Option Nat
  end_time : Option Nat
  notes : Option (Option String)
deriving Repr, DecidableEq

/-- The `setattr` loop of `SessionRepository.update`: overwrite exactly
the provided keys. -/
def applyPatch (p : SessionPatch) (s : Session) : Session :=
  { s with
    artist_id := p.artist_id.getD s.artist_id,
    client_id := p.client_id.getD s.client_id,
    date := p.date.getD s.date,
    start_time := p.start_time.getD s.start_time,
    end_time := p.end_time.getD s.end_time,
    notes := p.notes.getD s.notes }

/-- `SessionService.update_session` via `SessionRepository.update`: fetch
by primary key, return `none` when absent, otherwise patch the row in
place and commit.  Primary keys are unique, so patching every row with
the matching id patches exactly the fetched row. -/
def update_session (st : Store) (session_id : Nat) (p : SessionPatch) :
    Store × Option Session :=
  match st.sessions.find? (fun s => s.id == session_id) with
  | none => (st, none)
  | some s =>
    ({ st with sessions :=
        st.sessions.map (fun t => if t.id == session_id then applyPatch p t else t) },
     some (applyPatch p s))

/-- `SessionRepository.delete`: fetch by primary key; absent rows are
reported with `false`, not an exception; present rows are removed. -/
def repository_delete (st : Store) (session_id : Nat) : Store × Bool :=
  match st.sessions.find? (fun s => s.id == session_id) with
  | none => (st, false)
  | some _ =>
    ({ st with sessions := st.sessions.filter (fun s => !(s.id == session_id)) }, true)

/-- `SessionService.delete_session`: calls the repository and discards the
found flag. -/
def delete_session (st : Store) (session_id : Nat) : Store :=
  (repository_delete st session_id).1

/-- A calendar event produced by `get_all_sessions_for_calendar`.
`start` and `stop` are the `datetime.combine(date, time)` values, kept as
(date, time-of-day) pairs. -/
structure CalendarEvent where
  title : String
  start : Nat × Nat
  stop : Nat × Nat
  id : Nat
deriving Repr, DecidableEq

/-- The loop body of `get_all_sessions_for_calendar`: one event per
stored session, looking the client up by primary key and falling back to
the name "Unknown Client" when the reference dangles. -/
def calendar_events (clients : List Client) : List Session → List CalendarEvent
  | [] => []
  | s :: rest =>
    let client_name :=
      match clients.find? (fun c => c.id == s.client_id) with
      | some c => c.name
      | none => "Unknown Client"
    ⟨"Tattoo with " ++ client_name,
      (s.date, s.start_time), (s.date, s.end_time), s.id⟩ ::
      calendar_events clients rest

/-- `SessionService.get_all_sessions_for_calendar`. -/
def get_all_sessions_for_calendar (st : Store) : List CalendarEvent :=
  calendar_events st.clients st.sessions

/-- The no-double-booking invariant: no two stored sessions for the same
artist and date have overlapping half-open intervals. -/
def NoOverlaps (st : Store) : Prop :=
  st.sessions.Pairwise (fun a b => sessionsOverlap a b = false)

/-- One scheduler operation, for reachability statements. -/
inductive Op where
  | create (raw : RawPayload)
  | update (session_id : Nat) (p : SessionPatch)
  | delete (session_id : Nat)
deriving Repr, DecidableEq

/-- Whether an operation is an update. -/
def Op.isUpdate : Op → Bool
  | .update _ _ => true
  | _ => false

/-- Apply one operation to the store, keeping the store a failed create
leaves behind (which is the same store). -/
def applyOp (st : Store) : Op → Store
  | .create raw => (create_session st raw).1
  | .update i p => (update_session st i p).1
  | .delete i => delete_session st i

/-- Run a sequence of scheduler operations. -/
def run (st : Store) (ops : List Op) : Store :=
  ops.foldl applyOp st

-- Concrete fixtures used by witnesses and counterexamples.

/-- A store with one artist and one client and no sessions. -/
def store0 : Store :=
  ⟨[⟨1, "Artist One", "artist@studio.test", none⟩],
   [⟨1, 1, "Client One"⟩], [], 1⟩

/-- Raw payload: artist 1, client 1, date 738886, 10:00 to 11:00. -/
def rawA : RawPayload := ⟨some 1, some 1, some 738886, some 600, some 660, none⟩

/-- Raw payload: artist 1, client 1, date 738886, 11:00 to 12:00. -/
def rawB : RawPayload := ⟨some 1, some 1, some 738886, some 660, some 720, none⟩

/-- The parsed form of `rawA`. -/
def payloadA : SessionPayload := ⟨1, 1, 738886, 600, 660, none⟩

/-- Patch that moves the start time to 10:30 and touches nothing else. -/
def patchHalfHourEarlier : SessionPatch := ⟨none, none, none, some 630, none, none⟩

example : schema_load rawA = .ok payloadA := by rfl

example :
    (create_session store0 rawA).2 =
      .ok ⟨1, 1, 1, 738886, 600, 660, none⟩ := by rfl

/-- Abstract model of the third-party passlib bcrypt hash used by
`User.set_password`: an opaque-to-the-caller injection of passwords into
stored hashes.  None of the verified claims depends on hash properties,
only on which rows the code writes a hash into. -/
def bcrypt_hash (password : String) : String := "bcrypt$" ++ password

/-- The SQLAlchemy update of the first row matching an email filter, as
performed by `user.name = name; db_session.commit()` after
`query(User).filter_by(email=email).first()`. -/
def set_name_first : List User → String → String → List User
  | [], _, _ => []
  | u :: us, email, n =>
    if u.email == email then { u with name := n } :: us
    else u :: set_name_first us email n

/-- The SQLAlchemy update of the first row matching an email filter, as
performed by `user.set_password(pw); db_session.commit()`. -/
def set_password_first : List User → String → String → List User
  | [], _, _ => []
  | u :: us, email, pw =>
    if u.email == email then
      { u with password_hash := some (bcrypt_hash pw) } :: us
    else u :: set_password_first us email pw

/-- The identity-reconciliation block of the OAuth `callback` route: look
the claimed email up in the user table; if absent, insert one new User
whose name is the claimed display name, or the email when the name is
absent, with a bcrypt hash of a random token as password placeholder; if
present, update the stored name exactly when a display name is claimed
and differs, and touch nothing else.  `claimed_name` is `none` when the
provider returned no usable display name (python falsiness of `name`);
`fresh_id` is the primary key the database assigns to the inserted row;
`random_pw` is the `secrets.token_urlsafe(16)` value. -/
def reconcile_by_email (users : List User) (email : String)
    (claimed_name : Option String) (fresh_id : Nat) (random_pw : String) :
    List User :=
  match users.find? (fun u => u.email == email) with
  | none =>
    users ++ [⟨fresh_id, claimed_name.getD email, email,
      some (bcrypt_hash random_pw)⟩]
  | some u =>
    match claimed_name with
    | some n => if u.name ≠ n then set_name_first users email n else users
    | none => users

/-- A password-reset token as produced by the third-party itsdangerous
`URLSafeTimedSerializer.dumps`: the encoded email, the signing timestamp,
and the secret and salt the signature was produced with.  A tampered
token, or one signed with a different secret or salt, is exactly one
whose recorded secret or salt disagrees with the verifier, since the
signature is unforgeable. -/
structure ResetToken where
  email : String
  issued_at : Nat
  secret : String
  salt : String
deriving Repr, DecidableEq

/-- Result of `serializer.loads` on a timed token. -/
inductive LoadResult where
  | expired
  | invalid
  | ok (email : String)
deriving Repr, DecidableEq

/-- `URLSafeTimedSerializer(server_secret).loads(token, salt, max_age)`:
the signature is checked first (`BadSignature` on mismatch), then the age
(`SignatureExpired` when the token is older than `max_age` seconds). -/
def serializer_loads (tok : ResetToken) (server_secret salt : String)
    (now max_age : Nat) : LoadResult :=
  if tok.secret == server_secret && tok.salt == salt then
    if now - tok.issued_at > max_age then .expired else .ok tok.email
  else .invalid

/-- The user-visible outcome of the `reset_password` route. -/
inductive ResetView where
  | expired_message
  | invalid_message
  | fields_required
  | mismatch
  | updated (users : List User)
  | user_not_found
deriving Repr, DecidableEq

/-- The POST branch of the `reset_password` route: load the token with
the password-reset salt and a one-hour `max_age`, mapping
`SignatureExpired` to the expired message and `BadSignature` to the
invalid message; then require both password fields, require them equal,
and set the new password hash on the user whose email the token
encodes. -/
def reset_password (users : List User) (tok : ResetToken)
    (server_secret : String) (now : Nat)
    (new_password confirm_password : Option String) : ResetView :=
  match serializer_loads tok server_secret "password-reset-salt" now 3600 with
  | .expired => .expired_message
  | .invalid => .invalid_message
  | .ok email =>
    match new_password, confirm_password with
    | some np, some cp =>
      if np ≠ cp then .mismatch
      else
        match users.find? (fun u => u.email == email) with
        | some _ => .updated (set_password_first users email np)
        | none => .user_not_found
    | _, _ => .fields_required

/-- Unfolding of the conflict predicate into propositions. -/
lemma conflictsWith_iff (s : Session) (a d t e : Nat) :
    conflictsWith s a d t e = true ↔
      s.artist_id = a ∧ s.date = d ∧ s.start_time < e ∧ t < s.end_time := by
  simp [conflictsWith, overlapsHalfOpen, Bool.and_assoc, and_assoc]

/-- C1: assuming the payload parses, the range check passes and both
references resolve, create fails with a ConflictError exactly when some
stored session for the same artist and date passes the half-open overlap
test, and any reported identifier belongs to such a session; since the
test requires strict inequalities, a stored session that merely touches
the proposed one at an endpoint never makes it fail. -/
theorem create_session_conflict_iff (st : Store) (raw : RawPayload)
    (p : SessionPayload)
    (hload : schema_load raw = .ok p)
    (hrange : ¬ p.end_time ≤ p.start_time)
    (hartist : (find_user st p.artist_id).isSome)
    (hclient : (find_client st p.client_id).isSome) :
    ((∃ cid, (create_session st raw).2 = .error (.ConflictError cid)) ↔
      ∃ s ∈ st.sessions, s.artist_id = p.artist_id ∧ s.date = p.date ∧
        s.start_time < p.end_time ∧ p.start_time < s.end_time) ∧
    (∀ cid, (create_session st raw).2 = .error (.ConflictError cid) →
      ∃ s ∈ st.sessions, s.id = cid ∧ s.artist_id = p.artist_id ∧
        s.date = p.date ∧ s.start_time < p.end_time ∧
        p.start_time < s.end_time) := by
  obtain ⟨u, hu⟩ := Option.isSome_iff_exists.mp hartist
  obtain ⟨c, hc⟩ := Option.isSome_iff_exists.mp hclient
  unfold create_session
  rw [hload]
  simp only [if_neg hrange, hu, hc]
  cases hfind : st.sessions.find?
      (fun s => conflictsWith s p.artist_id p.date p.start_time p.end_time) with
  | none =>
    have hnone := List.find?_eq_none.mp hfind
    constructor
    · constructor
      · rintro ⟨cid, hcid⟩
        simp at hcid
      · rintro ⟨s, hs, h1, h2, h3, h4⟩
        exact absurd ((conflictsWith_iff s _ _ _ _).mpr ⟨h1, h2, h3, h4⟩)
          (hnone s hs)
    · intro cid hcid
      simp at hcid
  | some conflict =>
    have hmem := List.mem_of_find?_eq_some hfind
    have hprop := (conflictsWith_iff conflict _ _ _ _).mp
      (by simpa using List.find?_some hfind)
    constructor
    · constructor
      · intro _
        exact ⟨conflict, hmem, hprop⟩
      · intro _
        exact ⟨conflict.id, rfl⟩
    · intro cid hcid
      simp only [Except.error.injEq, Err.ConflictError.injEq] at hcid
      exact ⟨conflict, hmem, hcid, hprop⟩

/-- C1 witness: against a store holding one session 10:30 to 11:30, the
proposal 10:00 to 11:00 for the same artist and date is reported as a
conflict with that session. -/
def store1 : Store :=
  ⟨[⟨1, "Artist One", "artist@studio.test", none⟩],
   [⟨1, 1, "Client One"⟩], [⟨7, 1, 1, 738886, 630, 690, none⟩], 8⟩

theorem create_session_conflict_iff_witness :
    ((∃ cid, (create_session store1 rawA).2 = .error (.ConflictError cid)) ↔
      ∃ s ∈ store1.sessions, s.artist_id = payloadA.artist_id ∧
        s.date = payloadA.date ∧ s.start_time < payloadA.end_time ∧
        payloadA.start_time < s.end_time) ∧
    (∀ cid, (create_session store1 rawA).2 = .error (.ConflictError cid) →
      ∃ s ∈ store1.sessions, s.id = cid ∧ s.artist_id = payloadA.artist_id ∧
        s.date = payloadA.date ∧ s.start_time < payloadA.end_time ∧
        payloadA.start_time < s.end_time) :=
  create_session_conflict_iff store1 rawA payloadA (by rfl) (by decide)
    (by decide) (by decide)

/-- C3: once the payload parses, a proposed end time at or before the
start time makes create fail with the scheduling error, whatever the date
and the store contents, and the store is returned unchanged. -/
theorem create_session_rejects_bad_range (st : Store) (raw : RawPayload)
    (p : SessionPayload)
    (hload : schema_load raw = .ok p)
    (hle : p.end_time ≤ p.start_time) :
    create_session st raw =
      (st, .error (.SchedulingError "End time must be after start time.")) := by
  unfold create_session
  rw [hload]
  simp [hle]

/-- C3 witness: an 11:00 to 10:00 proposal is rejected with the
scheduling error and the store is unchanged. -/
def rawBackwards : RawPayload :=
  ⟨some 1, some 1, some 738886, some 660, some 600, none⟩

theorem create_session_rejects_bad_range_witness :
    create_session store0 rawBackwards =
      (store0, .error (.SchedulingError "End time must be after start time.")) :=
  create_session_rejects_bad_range store0 rawBackwards
    ⟨1, 1, 738886, 660, 600, none⟩ (by rfl) (by decide)

/-- C4: once the payload parses and the range check passes, a dangling
artist reference fails with the artist-specific NotFoundError and a
resolving artist with a dangling client reference fails with the
client-specific NotFoundError; in both cases the store is returned
unchanged, so no partial record exists. -/
theorem create_session_missing_refs (st : Store) (raw : RawPayload)
    (p : SessionPayload)
    (hload : schema_load raw = .ok p)
    (hrange : ¬ p.end_time ≤ p.start_time) :
    (find_user st p.artist_id = none →
      create_session st raw = (st, .error (.NotFoundError "Artist not found."))) ∧
    (∀ u, find_user st p.artist_id = some u →
      find_client st p.client_id = none →
      create_session st raw = (st, .error (.NotFoundError "Client not found."))) := by
  constructor
  · intro hus
    unfold create_session
    rw [hload]
    simp [if_neg hrange, hus]
  · intro u hu hcl
    unfold create_session
    rw [hload]
    simp [if_neg hrange, hu, hcl]

/-- C4 witness: in a store with no users and no clients, creating fails
with the artist NotFoundError and leaves the store unchanged; in a store
with the artist but no clients, it fails with the client NotFoundError. -/
def storeEmpty : Store := ⟨[], [], [], 1⟩

def storeArtistOnly : Store :=
  ⟨[⟨1, "Artist One", "artist@studio.test", none⟩], [], [], 1⟩

theorem create_session_missing_refs_witness :
    (create_session storeEmpty rawA =
      (storeEmpty, .error (.NotFoundError "Artist not found."))) ∧
    (create_session storeArtistOnly rawA =
      (storeArtistOnly, .error (.NotFoundError "Client not found."))) :=
  ⟨(create_session_missing_refs storeEmpty rawA payloadA (by rfl)
      (by decide)).1 (by rfl),
   (create_session_missing_refs storeArtistOnly rawA payloadA (by rfl)
      (by decide)).2 ⟨1, "Artist One", "artist@studio.test", none⟩
     (by rfl) (by rfl)⟩

/-- C5: create either fails and returns the store it was given, or
succeeds and performs exactly one write: the session table is extended by
exactly the returned row, and the user and client tables are untouched. -/
theorem create_session_write_discipline (st : Store) (raw : RawPayload) :
    (∀ e, (create_session st raw).2 = .error e →
      (create_session st raw).1 = st) ∧
    (∀ s, (create_session st raw).2 = .ok s →
      (create_session st raw).1.sessions = st.sessions ++ [s] ∧
      (create_session st raw).1.users = st.users ∧
      (create_session st raw).1.clients = st.clients) := by
  unfold create_session
  cases hload : schema_load raw with
  | error e => simp
  | ok p =>
    by_cases hle : p.end_time ≤ p.start_time
    · simp [hle]
    · simp only [if_neg hle]
      cases hu : find_user st p.artist_id with
      | none => simp
      | some u =>
        cases hc : find_client st p.client_id with
        | none => simp
        | some c =>
          cases hfind : st.sessions.find?
              (fun s => conflictsWith s p.artist_id p.date p.start_time p.end_time) with
          | some conflict => simp
          | none =>
            constructor
            · intro e he
              simp at he
            · intro s hs
              simp only [Except.ok.injEq] at hs
              subst hs
              exact ⟨rfl, rfl, rfl⟩

/-- C8: updating an unknown identifier reports not-found and leaves the
store unchanged; updating a stored session overwrites exactly the fields
named by the patch (a provided key takes the provided value, an absent
key keeps the stored value), leaves the user and client tables and the
session count untouched, and keeps every record with a different
identifier in the table unchanged. -/
theorem update_session_frame (st : Store) (sid : Nat) (p : SessionPatch) :
    (st.sessions.find? (fun s => s.id == sid) = none →
      update_session st sid p = (st, none)) ∧
    (∀ s, st.sessions.find? (fun s => s.id == sid) = some s →
      ∃ s', (update_session st sid p).2 = some s' ∧
        ((∀ v, p.artist_id = some v → s'.artist_id = v) ∧
          (p.artist_id = none → s'.artist_id = s.artist_id)) ∧
        ((∀ v, p.client_id = some v → s'.client_id = v) ∧
          (p.client_id = none → s'.client_id = s.client_id)) ∧
        ((∀ v, p.date = some v → s'.date = v) ∧
          (p.date = none → s'.date = s.date)) ∧
        ((∀ v, p.start_time = some v → s'.start_time = v) ∧
          (p.start_time = none → s'.start_time = s.start_time)) ∧
        ((∀ v, p.end_time = some v → s'.end_time = v) ∧
          (p.end_time = none → s'.end_time = s.end_time)) ∧
        ((∀ v, p.notes = some v → s'.notes = v) ∧
          (p.notes = none → s'.notes = s.notes)) ∧
        s'.id = s.id ∧
        (update_session st sid p).1.users = st.users ∧
        (update_session st sid p).1.clients = st.clients ∧
        (update_session st sid p).1.sessions.length = st.sessions.length ∧
        (∀ t ∈ st.sessions, t.id ≠ sid →
          t ∈ (update_session st sid p).1.sessions)) := by
  constructor
  · intro hnone
    unfold update_session
    rw [hnone]
  · intro s hs
    refine ⟨applyPatch p s, ?_, ?_, ?_, ?_, ?_, ?_, ?_, rfl, ?_, ?_, ?_, ?_⟩
    · unfold update_session; rw [hs]
    · exact ⟨fun v hv => by simp [applyPatch, hv],
        fun hv => by simp [applyPatch, hv]⟩
    · exact ⟨fun v hv => by simp [applyPatch, hv],
        fun hv => by simp [applyPatch, hv]⟩
    · exact ⟨fun v hv => by simp [applyPatch, hv],
        fun hv => by simp [applyPatch, hv]⟩
    · exact ⟨fun v hv => by simp [applyPatch, hv],
        fun hv => by simp [applyPatch, hv]⟩
    · exact ⟨fun v hv => by simp [applyPatch, hv],
        fun hv => by simp [applyPatch, hv]⟩
    · exact ⟨fun v hv => by simp [applyPatch, hv],
        fun hv => by simp [applyPatch, hv]⟩
    · unfold update_session; rw [hs]
    · unfold update_session; rw [hs]
    · unfold update_session; rw [hs]; simp
    · intro t ht hne
      unfold update_session
      rw [hs]
      simp only
      exact List.mem_map.mpr ⟨t, ht, by simp [hne]⟩

/-- C8 witness: updating the start time of the stored session 7 in the
one-session store, and updating an absent identifier. -/
theorem update_session_frame_witness :
    (update_session store1 99 patchHalfHourEarlier = (store1, none)) ∧
    ∃ s', (update_session store1 7 patchHalfHourEarlier).2 = some s' ∧
      s'.start_time = 630 ∧ s'.end_time = 690 ∧ s'.id = 7 :=
  ⟨(update_session_frame store1 99 patchHalfHourEarlier).1 (by rfl),
   by
    obtain ⟨s', h1, _, _, _, h4, h5, _, h7, _⟩ :=
      (update_session_frame store1 7 patchHalfHourEarlier).2
        ⟨7, 1, 1, 738886, 630, 690, none⟩ (by rfl)
    have hst : patchHalfHourEarlier.start_time = some 630 := by decide
    have hen : patchHalfHourEarlier.end_time = none := by decide
    exact ⟨s', h1, h4.1 630 hst, h5.2 hen, h7⟩⟩

/-- C9: deleting an identifier with no stored session is not an error
(the repository reports false) and leaves the store unchanged, and
deleting twice yields the same store as deleting once. -/
theorem delete_session_idempotent (st : Store) (sid : Nat) :
    ((∀ s ∈ st.sessions, s.id ≠ sid) →
      delete_session st sid = st ∧ (repository_delete st sid).2 = false) ∧
    delete_session (delete_session st sid) sid = delete_session st sid := by
  constructor
  · intro habs
    have hnone : st.sessions.find? (fun s => s.id == sid) = none :=
      List.find?_eq_none.mpr (fun s hs => by simp [habs s hs])
    unfold delete_session repository_delete
    rw [hnone]
    exact ⟨rfl, rfl⟩
  · cases hfind : st.sessions.find? (fun s => s.id == sid) with
    | none => simp only [delete_session, repository_delete, hfind]
    | some s =>
      have h2 : (st.sessions.filter (fun s => !(s.id == sid))).find?
          (fun s => s.id == sid) = none :=
        List.find?_eq_none.mpr (fun t ht => by
          have := (List.mem_filter.mp ht).2
          simp at this ⊢
          exact this)
      simp only [delete_session, repository_delete, hfind, h2]

/-- C9 witness: deleting the absent identifier 99 from the one-session
store is a no-op reported with false, and deleting session 7 twice
equals deleting it once. -/
theorem delete_session_idempotent_witness :
    (delete_session store1 99 = store1 ∧
      (repository_delete store1 99).2 = false) ∧
    delete_session (delete_session store1 7) 7 = delete_session store1 7 :=
  ⟨(delete_session_idempotent store1 99).1 (by decide),
   (delete_session_idempotent store1 7).2⟩

/-- Length of the calendar event list. -/
lemma calendar_events_length (cs : List Client) (l : List Session) :
    (calendar_events cs l).length = l.length := by
  induction l with
  | nil => rfl
  | cons s rest ih => simp [calendar_events, ih]

/-- Every stored session yields its event, with the fallback title when
the client reference dangles. -/
lemma calendar_events_mem (cs : List Client) (l : List Session) :
    ∀ s ∈ l, ∃ e ∈ calendar_events cs l, e.id = s.id ∧
      e.start = (s.date, s.start_time) ∧ e.stop = (s.date, s.end_time) ∧
      (cs.find? (fun c => c.id == s.client_id) = none →
        e.title = "Tattoo with Unknown Client") := by
  induction l with
  | nil => intro s hs; cases hs
  | cons x rest ih =>
    intro s hs
    rcases List.mem_cons.mp hs with h | h
    · subst h
      cases hfind : cs.find? (fun c => c.id == s.client_id) with
      | none =>
        refine ⟨_, List.mem_cons_self _ _, ?_⟩
        simp [calendar_events, hfind]
        rfl
      | some c =>
        refine ⟨_, List.mem_cons_self _ _, ?_⟩
        simp [calendar_events, hfind]
    · obtain ⟨e, he, hprops⟩ := ih s h
      exact ⟨e, by simp [calendar_events]; right; exact he, hprops⟩

/-- C10: the calendar view is total over dangling client references: it
returns exactly one record per stored session, and when a session's
client reference resolves to no client the record carries the fallback
title built from the name "Unknown Client" instead of the operation
failing. -/
theorem get_all_sessions_for_calendar_total (st : Store) :
    (get_all_sessions_for_calendar st).length = st.sessions.length ∧
    ∀ s ∈ st.sessions, ∃ e ∈ get_all_sessions_for_calendar st, e.id = s.id ∧
      e.start = (s.date, s.start_time) ∧ e.stop = (s.date, s.end_time) ∧
      (find_client st s.client_id = none →
        e.title = "Tattoo with Unknown Client") :=
  ⟨calendar_events_length st.clients st.sessions,
   calendar_events_mem st.clients st.sessions⟩

/-- C10 witness: a store whose only session references the absent client
42 still yields one event, titled with the fallback name. -/
def storeDangling : Store :=
  ⟨[⟨1, "Artist One", "artist@studio.test", none⟩], [],
   [⟨5, 1, 42, 738886, 600, 660, none⟩], 6⟩

theorem get_all_sessions_for_calendar_total_witness :
    (get_all_sessions_for_calendar storeDangling).length =
        storeDangling.sessions.length ∧
    ∃ e ∈ get_all_sessions_for_calendar storeDangling, e.id = 5 ∧
      e.title = "Tattoo with Unknown Client" := by
  obtain ⟨hlen, hmem⟩ := get_all_sessions_for_calendar_total storeDangling
  obtain ⟨e, he, hid, _, _, htitle⟩ :=
    hmem ⟨5, 1, 42, 738886, 600, 660, none⟩ (List.mem_singleton.mpr rfl)
  exact ⟨hlen, e, he, hid, htitle (by rfl)⟩

/-- A successful create only appends a session that conflicts with no
stored one, so the invariant survives. -/
lemma create_session_preserves_no_overlaps (st : Store) (raw : RawPayload)
    (h : NoOverlaps st) : NoOverlaps (create_session st raw).1 := by
  unfold create_session
  cases hload : schema_load raw with
  | error e => exact h
  | ok p =>
    by_cases hle : p.end_time ≤ p.start_time
    · simp only [if_pos hle]
      exact h
    · simp only [if_neg hle]
      cases hu : find_user st p.artist_id with
      | none => exact h
      | some u =>
        cases hc : find_client st p.client_id with
        | none => exact h
        | some c =>
          cases hfind : st.sessions.find?
              (fun s => conflictsWith s p.artist_id p.date p.start_time p.end_time) with
          | some conflict => exact h
          | none =>
            have hnone := List.find?_eq_none.mp hfind
            unfold NoOverlaps at h ⊢
            simp only [List.pairwise_append]
            refine ⟨h, List.pairwise_singleton _ _, ?_⟩
            intro a ha b hb
            simp only [List.mem_singleton] at hb
            subst hb
            have : ¬ conflictsWith a p.artist_id p.date p.start_time p.end_time = true :=
              hnone a ha
            exact Bool.not_eq_true _ ▸ (by
              simpa [sessionsOverlap, conflictsWith] using
                Bool.eq_false_iff.mpr this)

/-- Deleting keeps a sublist of the sessions, so the invariant survives. -/
lemma delete_session_preserves_no_overlaps (st : Store) (i : Nat)
    (h : NoOverlaps st) : NoOverlaps (delete_session st i) := by
  unfold delete_session repository_delete
  cases hfind : st.sessions.find? (fun s => s.id == i) with
  | none => exact h
  | some s => exact List.Pairwise.sublist (List.filter_sublist _) h

/-- C2 counterexample: two non-overlapping sessions are created (10:00 to
11:00 and 11:00 to 12:00 for the same artist and date), then the second
is updated to start at 10:30; update runs no conflict re-check, so the
reachable store violates the invariant. -/
theorem no_overlaps_invariant_counterexample :
    ¬ NoOverlaps (run store0
      [Op.create rawA, Op.create rawB, Op.update 2 patchHalfHourEarlier]) := by
  intro h
  have hrun : (run store0
      [Op.create rawA, Op.create rawB, Op.update 2 patchHalfHourEarlier]).sessions =
      [⟨1, 1, 1, 738886, 600, 660, none⟩, ⟨2, 1, 1, 738886, 630, 720, none⟩] := by rfl
  unfold NoOverlaps at h
  rw [hrun] at h
  have := List.rel_of_pairwise_cons h (List.mem_singleton.mpr rfl)
  simp [sessionsOverlap, overlapsHalfOpen] at this

/-- C2 amended: every store reachable from an invariant-satisfying store
(in particular one with an empty session table) by create and delete
operations alone satisfies the no-double-booking invariant; update
operations are excluded because update runs no conflict re-check. -/
theorem no_overlaps_invariant_create_delete (ops : List Op) :
    ∀ st : Store, (∀ op ∈ ops, op.isUpdate = false) → NoOverlaps st →
      NoOverlaps (run st ops) := by
  induction ops with
  | nil => intro st _ h; exact h
  | cons op rest ih =>
    intro st hops h
    have hrest : ∀ o ∈ rest, o.isUpdate = false := fun o ho =>
      hops o (List.mem_cons_of_mem _ ho)
    have hstep : NoOverlaps (applyOp st op) := by
      cases op with
      | create raw => exact create_session_preserves_no_overlaps st raw h
      | update i p =>
        have := hops (Op.update i p) (List.mem_cons_self _ _)
        simp [Op.isUpdate] at this
      | delete i => exact delete_session_preserves_no_overlaps st i h
    exact ih (applyOp st op) hrest hstep

/-- C2 amended witness: the create-create trace from the demo store
satisfies the invariant. -/
theorem no_overlaps_invariant_create_delete_witness :
    NoOverlaps (run store0 [Op.create rawA, Op.create rawB, Op.delete 1]) :=
  no_overlaps_invariant_create_delete
    [Op.create rawA, Op.create rawB, Op.delete 1] store0
    (by intro op hop; fin_cases hop <;> rfl)
    (List.Pairwise.nil)

/-- C5 witness: instantiating the write-discipline theorem on the failing
backwards-range payload and on a succeeding payload. -/
theorem create_session_write_discipline_witness :
    ((create_session store0 rawBackwards).1 = store0) ∧
    ((create_session store0 rawA).1.sessions =
        store0.sessions ++ [⟨1, 1, 1, 738886, 600, 660, none⟩] ∧
      (create_session store0 rawA).1.users = store0.users ∧
      (create_session store0 rawA).1.clients = store0.clients) :=
  ⟨(create_session_write_discipline store0 rawBackwards).1
      (.SchedulingError "End time must be after start time.") (by rfl),
   (create_session_write_discipline store0 rawA).2
      ⟨1, 1, 1, 738886, 600, 660, none⟩ (by rfl)⟩

/-- Renaming the first matching row keeps the list length. -/
lemma set_name_first_length (l : List User) (e n : String) :
    (set_name_first l e n).length = l.length := by
  induction l with
  | nil => rfl
  | cons u us ih =>
    unfold set_name_first
    by_cases h : u.email == e
    · simp [h]
    · simp [h, ih]

/-- Renaming the first matching row touches no password hash. -/
lemma set_name_first_password (l : List User) (e n : String) :
    (set_name_first l e n).map (fun v => v.password_hash) =
      l.map (fun v => v.password_hash) := by
  induction l with
  | nil => rfl
  | cons u us ih =>
    unfold set_name_first
    by_cases h : u.email == e
    · simp [h]
    · simp [h, ih]

/-- Renaming the first matching row touches no email. -/
lemma set_name_first_email (l : List User) (e n : String) :
    (set_name_first l e n).map (fun v => v.email) = l.map (fun v => v.email) := by
  induction l with
  | nil => rfl
  | cons u us ih =>
    unfold set_name_first
    by_cases h : u.email == e
    · simp [h]
    · simp [h, ih]

/-- After renaming the first row matching an email, the first row
matching that email is the found row with the new name. -/
lemma set_name_first_find (l : List User) (e n : String) (u : User)
    (h : l.find? (fun v => v.email == e) = some u) :
    (set_name_first l e n).find? (fun v => v.email == e) =
      some { u with name := n } := by
  induction l with
  | nil => cases h
  | cons x xs ih =>
    by_cases hx : (x.email == e) = true
    · have hx' : (fun v : User => v.email == e) x = true := hx
      rw [@List.find?_cons_of_pos User (fun v => v.email == e) x xs hx'] at h
      injection h with h
      subst h
      unfold set_name_first
      rw [if_pos hx]
      exact @List.find?_cons_of_pos User (fun v => v.email == e) _ xs hx
    · have hx' : ¬ (fun v : User => v.email == e) x = true := hx
      rw [@List.find?_cons_of_neg User (fun v => v.email == e) x xs hx'] at h
      unfold set_name_first
      rw [if_neg hx]
      rw [@List.find?_cons_of_neg User (fun v => v.email == e) x
        (set_name_first xs e n) hx']
      exact ih h

/-- After setting the password of the first row matching an email, the
first row matching that email is the found row with the new hash. -/
lemma set_password_first_find (l : List User) (e pw : String) (u : User)
    (h : l.find? (fun v => v.email == e) = some u) :
    (set_password_first l e pw).find? (fun v => v.email == e) =
      some { u with password_hash := some (bcrypt_hash pw) } := by
  induction l with
  | nil => cases h
  | cons x xs ih =>
    by_cases hx : (x.email == e) = true
    · have hx' : (fun v : User => v.email == e) x = true := hx
      rw [@List.find?_cons_of_pos User (fun v => v.email == e) x xs hx'] at h
      injection h with h
      subst h
      unfold set_password_first
      rw [if_pos hx]
      exact @List.find?_cons_of_pos User (fun v => v.email == e) _ xs hx
    · have hx' : ¬ (fun v : User => v.email == e) x = true := hx
      rw [@List.find?_cons_of_neg User (fun v => v.email == e) x xs hx'] at h
      unfold set_password_first
      rw [if_neg hx]
      rw [@List.find?_cons_of_neg User (fun v => v.email == e) x
        (set_password_first xs e pw) hx']
      exact ih h

/-- C6: when no user carries the claimed email, reconciliation appends
exactly one new user, named by the claimed display name or the email in
its absence, with a hashed random placeholder password; when a user
carries the email, no user is created, every password hash and every
email is unchanged, the table is untouched when no differing display
name is claimed, and when a differing display name is claimed the stored
name of the matched user becomes the claimed one. -/
theorem reconcile_by_email_spec (users : List User) (email : String)
    (claimed_name : Option String) (fresh_id : Nat) (random_pw : String) :
    (users.find? (fun u => u.email == email) = none →
      reconcile_by_email users email claimed_name fresh_id random_pw =
        users ++ [⟨fresh_id, claimed_name.getD email, email,
          some (bcrypt_hash random_pw)⟩]) ∧
    (∀ u, users.find? (fun u => u.email == email) = some u →
      (reconcile_by_email users email claimed_name fresh_id random_pw).length =
          users.length ∧
      (reconcile_by_email users email claimed_name fresh_id random_pw).map
          (fun v => v.password_hash) = users.map (fun v => v.password_hash) ∧
      (reconcile_by_email users email claimed_name fresh_id random_pw).map
          (fun v => v.email) = users.map (fun v => v.email) ∧
      (claimed_name = none →
        reconcile_by_email users email claimed_name fresh_id random_pw = users) ∧
      (∀ n, claimed_name = some n → n = u.name →
        reconcile_by_email users email claimed_name fresh_id random_pw = users) ∧
      (∀ n, claimed_name = some n → n ≠ u.name →
        (reconcile_by_email users email claimed_name fresh_id random_pw).find?
            (fun v => v.email == email) = some { u with name := n })) := by
  constructor
  · intro hnone
    unfold reconcile_by_email
    rw [hnone]
  · intro u hu
    cases claimed_name with
    | none =>
      have hred : reconcile_by_email users email none fresh_id random_pw =
          users := by
        simp only [reconcile_by_email, hu]
      rw [hred]
      refine ⟨rfl, rfl, rfl, fun _ => rfl, ?_, ?_⟩
      · intro m hm
        exact Option.noConfusion hm
      · intro m hm
        exact Option.noConfusion hm
    | some n =>
      by_cases hne : u.name ≠ n
      · have hred : reconcile_by_email users email (some n) fresh_id random_pw =
            set_name_first users email n := by
          simp only [reconcile_by_email, hu, if_pos hne]
        rw [hred]
        refine ⟨set_name_first_length users email n,
          set_name_first_password users email n,
          set_name_first_email users email n, ?_, ?_, ?_⟩
        · intro hc
          exact Option.noConfusion hc
        · intro m hm heq
          injection hm with hm
          subst hm
          exact absurd heq.symm hne
        · intro m hm _
          injection hm with hm
          subst hm
          exact set_name_first_find users email n u hu
      · have hred : reconcile_by_email users email (some n) fresh_id random_pw =
            users := by
          simp only [reconcile_by_email, hu, if_neg hne]
        rw [hred]
        push_neg at hne
        refine ⟨rfl, rfl, rfl, fun _ => rfl, fun _ _ _ => rfl, ?_⟩
        intro m hm hdiff
        injection hm with hm
        subst hm
        exact absurd hne.symm hdiff

/-- C6 witness: a first login for a fresh email appends one user named
with the claimed display name, and a second login for a stored email
with a changed display name keeps the table size and password hash and
renames the stored user. -/
def usersDemo : List User := [⟨1, "Old Name", "a@b.test", some "hash1"⟩]

theorem reconcile_by_email_spec_witness :
    (reconcile_by_email usersDemo "new@b.test" (some "New Person") 2 "tok" =
      usersDemo ++ [⟨2, "New Person", "new@b.test", some (bcrypt_hash "tok")⟩]) ∧
    ((reconcile_by_email usersDemo "a@b.test" (some "Renamed") 2 "tok").length =
        usersDemo.length ∧
      (reconcile_by_email usersDemo "a@b.test" (some "Renamed") 2 "tok").map
          (fun v => v.password_hash) = usersDemo.map (fun v => v.password_hash) ∧
      (reconcile_by_email usersDemo "a@b.test" (some "Renamed") 2 "tok").find?
          (fun v => v.email == "a@b.test") =
        some ⟨1, "Renamed", "a@b.test", some "hash1"⟩) := by
  have h1 := (reconcile_by_email_spec usersDemo "new@b.test"
    (some "New Person") 2 "tok").1 (by decide)
  have h2 := (reconcile_by_email_spec usersDemo "a@b.test"
    (some "Renamed") 2 "tok").2 ⟨1, "Old Name", "a@b.test", some "hash1"⟩
    (by decide)
  exact ⟨h1, h2.1, h2.2.1,
    h2.2.2.2.2.2 "Renamed" rfl (by decide)⟩

/-- C7: a token with the right secret and salt but older than the
one-hour window is classified expired; a token signed with a different
secret is classified invalid; and whenever the route reports a password
update, the token carried the right secret and salt and was inside the
window, and the updated table stores the bcrypt hash of the submitted
password on the user carrying the email the token encodes. -/
theorem reset_password_token_spec (users : List User) (tok : ResetToken)
    (server_secret : String) (now : Nat) (np cp : Option String) :
    (tok.secret = server_secret → tok.salt = "password-reset-salt" →
      now - tok.issued_at > 3600 →
      reset_password users tok server_secret now np cp = .expired_message) ∧
    (tok.secret ≠ server_secret →
      reset_password users tok server_secret now np cp = .invalid_message) ∧
    (∀ us', reset_password users tok server_secret now np cp = .updated us' →
      tok.secret = server_secret ∧ tok.salt = "password-reset-salt" ∧
      now - tok.issued_at ≤ 3600 ∧
      ∃ pw, np = some pw ∧ cp = some pw ∧
        us' = set_password_first users tok.email pw ∧
        ∃ u, users.find? (fun v => v.email == tok.email) = some u ∧
          us'.find? (fun v => v.email == tok.email) =
            some { u with password_hash := some (bcrypt_hash pw) }) := by
  refine ⟨?_, ?_, ?_⟩
  · intro hsec hsalt hage
    unfold reset_password serializer_loads
    rw [if_pos (by simp [hsec, hsalt]), if_pos hage]
  · intro hsec
    unfold reset_password serializer_loads
    rw [if_neg (by simp [hsec])]
  · intro us' h
    unfold reset_password serializer_loads at h
    by_cases hsig : (tok.secret == server_secret &&
        tok.salt == "password-reset-salt") = true
    · rw [if_pos hsig] at h
      simp only [Bool.and_eq_true, beq_iff_eq] at hsig
      by_cases hage : now - tok.issued_at > 3600
      · rw [if_pos hage] at h
        cases h
      · rw [if_neg hage] at h
        refine ⟨hsig.1, hsig.2, by omega, ?_⟩
        cases np with
        | none => cases h
        | some pw =>
          cases cp with
          | none => cases h
          | some pw' =>
            simp only at h
            by_cases hne : pw ≠ pw'
            · rw [if_pos hne] at h
              cases h
            · rw [if_neg hne] at h
              push_neg at hne
              subst hne
              cases hfind : users.find? (fun v => v.email == tok.email) with
              | none => rw [hfind] at h; cases h
              | some u =>
                rw [hfind] at h
                injection h with h
                subst h
                exact ⟨pw, rfl, rfl, rfl, u, rfl,
                  set_password_first_find users tok.email pw u hfind⟩
    · rw [if_neg hsig] at h
      cases h

/-- C7 witness: with server secret "sekrit", a well-salted token issued
at time 0 is rejected as expired at time 4000; a token signed with the
secret "other" is rejected as invalid; and a fresh valid token at time
100 with matching password fields yields an update storing the new hash
on the encoded email. -/
def tokDemo : ResetToken := ⟨"a@b.test", 0, "sekrit", "password-reset-salt"⟩

def tokForged : ResetToken := ⟨"a@b.test", 0, "other", "password-reset-salt"⟩

theorem reset_password_token_spec_witness :
    (reset_password usersDemo tokDemo "sekrit" 4000 (some "pw") (some "pw") =
      .expired_message) ∧
    (reset_password usersDemo tokForged "sekrit" 100 (some "pw") (some "pw") =
      .invalid_message) ∧
    (tokDemo.secret = "sekrit" ∧ 100 - tokDemo.issued_at ≤ 3600 ∧
      ∃ pw, some "pw" = some pw ∧
        (set_password_first usersDemo tokDemo.email pw).find?
            (fun v => v.email == tokDemo.email) =
          some ⟨1, "Old Name", "a@b.test", some (bcrypt_hash pw)⟩) := by
  refine ⟨?_, ?_, ?_⟩
  · exact (reset_password_token_spec usersDemo tokDemo "sekrit" 4000
      (some "pw") (some "pw")).1 (by decide) (by decide) (by decide)
  · exact (reset_password_token_spec usersDemo tokForged "sekrit" 100
      (some "pw") (some "pw")).2.1 (by decide)
  · obtain ⟨hsec, _, hage, pw, hnp, _, hus, u, hfind, hres⟩ :=
      (reset_password_token_spec usersDemo tokDemo "sekrit" 100
        (some "pw") (some "pw")).2.2
        (set_password_first usersDemo tokDemo.email "pw") (by decide)
    exact ⟨hsec, hage, pw, hnp, by
      have hfind' : usersDemo.find? (fun v => v.email == tokDemo.email) =
          some ⟨1, "Old Name", "a@b.test", some "hash1"⟩ := by decide
      rw [hfind] at hfind'
      injection hfind' with huq
      subst huq
      rw [← hus]
      exact hres⟩
